import Mathlib

/-!
Shallow embedding of the decoder core of this repository:

  * src/wad-webui/tools/extract.py      (archive chunk-table reader)
  * src/bin-webui/tools/ritobin_mac.py  (recursive PROP value decoder)
  * src/bin-webui/tools/bin_parser.py   (quick PROP viewer)
  * src/bin-webui/tools/hash_unhasher.py (hash rendering)

Buffers are lists of byte values (each intended `< 256`); Python `bytes`
slicing, `struct.unpack_from` bounds checks and `BytesIO` reads are made
explicit.  Fallible reads return `Except Err`.  Python exceptions
(`struct.error`, `ValueError` EOF, `AssertionError` on the span asserts,
`NotImplementedError` for unknown tags) are mapped to `Err` constructors.
-/

set_option maxRecDepth 10000

/-- Byte buffers, as in the Python sources: a sequence of byte values. -/
abbrev Bytes := List Nat

/-- Byte at index `i` (callers establish bounds before using it). -/
def byteAt (b : Bytes) (i : Nat) : Nat := b.getD i 0

/-- Python slice `b[i:j]` (for `i ≤ j ≤ len`; clamps like Python otherwise). -/
def byteSlice (b : Bytes) (i j : Nat) : Bytes := (b.drop i).take (j - i)

/-- Little-endian combination of `k` bytes starting at `off`
(the value computed by `struct.unpack_from` for the fixed-width formats). -/
def leNat (b : Bytes) : Nat → Nat → Nat
  | _,   0     => 0
  | off, k + 1 => byteAt b off + 256 * leNat b (off + 1) k

/-- Error taxonomy of the decoders.  `eof` models `struct.error` /
`ValueError` on a short read, `sizeMismatch` the `AssertionError` raised by
the span-consistency asserts, `badTag` the `ValueError` of `Type(typ)` and
the `NotImplementedError` for unhandled tags, `noVersion` the
"Unable to locate version field" error, `badEntryCnt` the entry-count sanity
check, `badMagic` a magic mismatch, and `fuel` exhaustion of the explicit
recursion bound of the embedding (never reached on the concrete inputs used
below). -/
inductive Err where
  | eof (pos k : Nat)
  | badMagic
  | badTag (t : Nat)
  | sizeMismatch (expected actual : Nat)
  | noVersion
  | badEntryCnt
  | fuel
  deriving DecidableEq, Repr

/-- Bounds-checked little-endian read of `k` bytes at `p`
(`struct.unpack_from` raises when fewer than `k` bytes remain). -/
def readLE (b : Bytes) (p k : Nat) : Except Err Nat :=
  if p + k ≤ b.length then .ok (leNat b p k) else .error (.eof p k)

/-- Cursor.u8 of ritobin_mac.py. -/
def readU8 (b : Bytes) (p : Nat) : Except Err Nat := readLE b p 1

/-- Cursor.u16 of ritobin_mac.py. -/
def readU16 (b : Bytes) (p : Nat) : Except Err Nat := readLE b p 2

/-- Cursor.u32 of ritobin_mac.py. -/
def readU32 (b : Bytes) (p : Nat) : Except Err Nat := readLE b p 4

/-- Cursor.u64 of ritobin_mac.py. -/
def readU64 (b : Bytes) (p : Nat) : Except Err Nat := readLE b p 8

/-- Cursor._take of ritobin_mac.py: `n` raw bytes at `p`, EOF-checked. -/
def takeN (b : Bytes) (p n : Nat) : Except Err Bytes :=
  if p + n ≤ b.length then .ok (byteSlice b p (p + n)) else .error (.eof p n)

/-- Two's-complement reinterpretation of a `w`-bit unsigned value
(`struct.unpack` with a signed format character). -/
def toSigned (w n : Nat) : Int :=
  if n < 2 ^ (w - 1) then (n : Int) else (n : Int) - 2 ^ w

/-- Hex digit character; `upper` selects the `X` (uppercase) format. -/
def hexDigitChar (upper : Bool) (d : Nat) : Char :=
  if d < 10 then Char.ofNat (48 + d)
  else Char.ofNat ((if upper then 55 else 87) + d)

/-- Hex digit values of `n`, most significant first, as produced by Python
`%x` (a single `0` digit for `n = 0`).  The first argument is a recursion
bound; `n + 1` is always sufficient. -/
def hexRep : Nat → Nat → List Nat
  | 0,     _ => []
  | f + 1, n => if n < 16 then [n] else hexRep f (n / 16) ++ [n % 16]

/-- Python `"%0*x" / "%0*X"` zero-padded hex formatting of `n` to `width`. -/
def pyHexString (upper : Bool) (width n : Nat) : String :=
  let ds := (hexRep (n + 1) n).map (hexDigitChar upper)
  String.mk (List.replicate (width - ds.length) '0' ++ ds)

/-- Python `dict` assignment `m[k] = v`: replace the value at an existing
key in place, else append. -/
def pyInsert {α β : Type} [DecidableEq α] : List (α × β) → α → β → List (α × β)
  | [],              k, v => [(k, v)]
  | (k', v') :: rest, k, v =>
      if k' = k then (k', v) :: rest else (k', v') :: pyInsert rest k v

/-- Python `dict` lookup on the association-list representation. -/
def pyLookup {α β : Type} [DecidableEq α] : List (α × β) → α → Option β
  | [],              _ => none
  | (k', v') :: rest, k => if k' = k then some v' else pyLookup rest k

/-- Python `dict` built by inserting the pairs of `l` left to right. -/
def pyDict {α β : Type} [DecidableEq α] (l : List (α × β)) : List (α × β) :=
  l.foldl (fun m kv => pyInsert m kv.1 kv.2) []

/-- HashDB of ritobin_mac.py, abstracted over its loaded table
(`idx.get(h, ...)` never fails). -/
structure HashDB where
  idx : Nat → Option String

/-- HashDB.get: resolved name, or `"0x%08x"` (lowercase) when absent. -/
def HashDB.get (d : HashDB) (h : Nat) : String :=
  match d.idx h with
  | some s => s
  | none   => "0x" ++ pyHexString false 8 h

/-- RiotHashUnhasher of hash_unhasher.py, abstracted over its table. -/
structure RiotHashUnhasher where
  hash_map : Nat → Option String

/-- RiotHashUnhasher.unhash: resolved name, or `"0x%016X"` (uppercase). -/
def RiotHashUnhasher.unhash (u : RiotHashUnhasher) (v : Nat) : String :=
  match u.hash_map v with
  | some s => s
  | none   => "0x" ++ pyHexString true 16 v

/-- Empty hash table (decoders are usable with zero tables loaded). -/
def hdb0 : HashDB := ⟨fun _ => none⟩

/-- Empty unhash table. -/
def unh0 : RiotHashUnhasher := ⟨fun _ => none⟩

/-- Enum Type of ritobin_mac.py (named `Ty` because `Type` is reserved in
Lean); the numeric codes of the source are mapped by `toTy` below. -/
inductive Ty where
  | BOOL | I8 | U8 | I16 | U16 | I32 | U32 | I64 | U64 | F32
  | VEC2 | VEC3 | VEC4 | MTX44 | RGBA | STRING | HASH | FILE
  | LIST | LIST2 | POINTER | EMBED | LINK | OPTION | MAP | FLAG
  deriving DecidableEq, Repr

/-- Conversion `Type(typ)` of a tag byte to the enum; `none` models the
`ValueError` Python raises for a value that is not a member. -/
def toTy : Nat → Option Ty
  | 1   => some .BOOL
  | 2   => some .I8
  | 3   => some .U8
  | 4   => some .I16
  | 5   => some .U16
  | 6   => some .I32
  | 7   => some .U32
  | 8   => some .I64
  | 9   => some .U64
  | 10  => some .F32
  | 11  => some .VEC2
  | 12  => some .VEC3
  | 13  => some .VEC4
  | 14  => some .MTX44
  | 15  => some .RGBA
  | 16  => some .STRING
  | 17  => some .HASH
  | 18  => some .FILE
  | 128 => some .LIST
  | 129 => some .LIST2
  | 130 => some .POINTER
  | 131 => some .EMBED
  | 132 => some .LINK
  | 133 => some .OPTION
  | 134 => some .MAP
  | 135 => some .FLAG
  | _   => none

/-- Python objects produced by `read_value` of ritobin_mac.py.  Floats are
kept as their raw little-endian 32-bit patterns (`vF32`, and the entries of
`vVec`): the structural claims below never interpret them.  `vStr` keeps the
raw UTF-8 bytes of a pascal string (the `errors="replace"` text decoding is
presentation only).  `vHashRef`/`vLinkRef`/`vFileRef` keep the integer the
source formats as `"hash:%08x"`, `"link:%08x"`, `"file:%016x"`.  An `Option`
with count 0 is the Python `None` (`vNone`); otherwise `read_value` returns
the nested value itself, unwrapped.  `vObj` is the Python dict built for an
EMBED/POINTER, whose first insertion is the pair `"__type" ↦ type name`
(`vPyStr`).  `vMap` is the dict built for a MAP. -/
inductive Value where
  | vBool : Bool → Value
  | vInt : Int → Value
  | vNat : Nat → Value
  | vF32 : Nat → Value
  | vVec : List Nat → Value
  | vRGBA : Nat → Nat → Nat → Nat → Value
  | vStr : Bytes → Value
  | vHashRef : Nat → Value
  | vLinkRef : Nat → Value
  | vFileRef : Nat → Value
  | vNone : Value
  | vList : List Value → Value
  | vMap : List (Value × Value) → Value
  | vPyStr : String → Value
  | vObj : List (String × Value) → Value

mutual

/-- Structural model of Python `==` on decoded values, used for the dict
keys of a MAP (Python cross-type equalities such as `True == 1` cannot arise
there because a map's keys all come from one key tag). -/
def Value.beq : Value → Value → Bool
  | .vBool a, .vBool c => a == c
  | .vInt a, .vInt c => a == c
  | .vNat a, .vNat c => a == c
  | .vF32 a, .vF32 c => a == c
  | .vVec a, .vVec c => a == c
  | .vRGBA a1 a2 a3 a4, .vRGBA c1 c2 c3 c4 =>
      a1 == c1 && a2 == c2 && a3 == c3 && a4 == c4
  | .vStr a, .vStr c => a == c
  | .vHashRef a, .vHashRef c => a == c
  | .vLinkRef a, .vLinkRef c => a == c
  | .vFileRef a, .vFileRef c => a == c
  | .vNone, .vNone => true
  | .vList a, .vList c => beqValueList a c
  | .vMap a, .vMap c => beqValuePairs a c
  | .vPyStr a, .vPyStr c => a == c
  | .vObj a, .vObj c => beqValueFields a c
  | _, _ => false

/-- Elementwise `Value.beq` on lists. -/
def beqValueList : List Value → List Value → Bool
  | [], [] => true
  | x :: xs, y :: ys => Value.beq x y && beqValueList xs ys
  | _, _ => false

/-- Pairwise `Value.beq` on key/value pair lists. -/
def beqValuePairs : List (Value × Value) → List (Value × Value) → Bool
  | [], [] => true
  | (k1, v1) :: xs, (k2, v2) :: ys =>
      Value.beq k1 k2 && Value.beq v1 v2 && beqValuePairs xs ys
  | _, _ => false

/-- Pairwise comparison on name/value field lists. -/
def beqValueFields : List (String × Value) → List (String × Value) → Bool
  | [], [] => true
  | (k1, v1) :: xs, (k2, v2) :: ys =>
      k1 == k2 && Value.beq v1 v2 && beqValueFields xs ys
  | _, _ => false

end

/-- Python `dict` assignment keyed by an explicit equality function
(used for MAP values, whose keys are `Value`s compared by `Value.beq`). -/
def pyInsertBy {α β : Type} (eq : α → α → Bool) :
    List (α × β) → α → β → List (α × β)
  | [],              k, v => [(k, v)]
  | (k', v') :: rest, k, v =>
      if eq k' k then (k', v) :: rest else (k', v') :: pyInsertBy eq rest k v

/-- Python `dict` built with an explicit key-equality function. -/
def pyDictBy {α β : Type} (eq : α → α → Bool) (l : List (α × β)) :
    List (α × β) :=
  l.foldl (fun m kv => pyInsertBy eq m kv.1 kv.2) []

/-- Cursor.pascal_string: a u16 byte-length prefix followed by exactly that
many bytes; returns the raw bytes and the new cursor position. -/
def pascal_string (b : Bytes) (p : Nat) : Except Err (Bytes × Nat) :=
  match readU16 b p with
  | .error e => .error e
  | .ok n =>
    match takeN b (p + 2) n with
    | .error e => .error e
    | .ok raw => .ok (raw, p + 2 + n)

/-- The element loop of the LIST branch of `read_value`: `cnt` values of tag
`vt` decoded back to back by `rv` (which is `read_value` at smaller fuel). -/
def readSeq (rv : Nat → Nat → Except Err (Value × Nat)) (vt : Nat) :
    Nat → Nat → Except Err (List Value × Nat)
  | 0,     p => .ok ([], p)
  | n + 1, p =>
    match rv vt p with
    | .error e => .error e
    | .ok (v, p1) =>
      match readSeq rv vt n p1 with
      | .error e => .error e
      | .ok (vs, p2) => .ok (v :: vs, p2)

/-- The key/value loop of the MAP branch of `read_value`: `cnt` pairs in
file order. -/
def readPairs (rv : Nat → Nat → Except Err (Value × Nat)) (kt vt : Nat) :
    Nat → Nat → Except Err (List (Value × Value) × Nat)
  | 0,     p => .ok ([], p)
  | n + 1, p =>
    match rv kt p with
    | .error e => .error e
    | .ok (k, p1) =>
      match rv vt p1 with
      | .error e => .error e
      | .ok (v, p2) =>
        match readPairs rv kt vt n p2 with
        | .error e => .error e
        | .ok (ps, p3) => .ok ((k, v) :: ps, p3)

/-- The field loop shared by the EMBED/POINTER branch of `read_value` and
the root-entry loop of `parse_full_prop`: each field is a u32 name hash, a
u8 type tag, and a value decoded by `rv`; the resolved field name is paired
with the value in file order. -/
def readFields (rv : Nat → Nat → Except Err (Value × Nat)) (hdb : HashDB)
    (b : Bytes) : Nat → Nat → Except Err (List (String × Value) × Nat)
  | 0,     p => .ok ([], p)
  | n + 1, p =>
    match readU32 b p with
    | .error e => .error e
    | .ok fh =>
      match readU8 b (p + 4) with
      | .error e => .error e
      | .ok ft =>
        match rv ft (p + 5) with
        | .error e => .error e
        | .ok (v, p1) =>
          match readFields rv hdb b n p1 with
          | .error e => .error e
          | .ok (fs, p2) => .ok ((hdb.get fh, v) :: fs, p2)

/-- The LIST / LIST2 branch of `read_value` (`rv` is `read_value` at the
next smaller recursion bound): nested tag (u8), `size` (u32), `start_pos`
recorded right after `size`, `count` (u32), `count` elements, and the assert
`cur.pos == start_pos + size`. -/
def readListBody (rv : Nat → Nat → Except Err (Value × Nat)) (b : Bytes)
    (p : Nat) : Except Err (Value × Nat) :=
  match readU8 b p with
  | .error e => .error e
  | .ok vt =>
    match readU32 b (p + 1) with
    | .error e => .error e
    | .ok sz =>
      match readU32 b (p + 5) with
      | .error e => .error e
      | .ok cnt =>
        match readSeq rv vt cnt (p + 9) with
        | .error e => .error e
        | .ok (xs, q) =>
          if q = p + 5 + sz then .ok (.vList xs, q)
          else .error (.sizeMismatch (p + 5 + sz) q)

/-- The MAP branch of `read_value`: key tag, value tag, `size`, `start_pos`
right after `size`, `count`, `count` key/value pairs inserted into a dict in
file order, and the assert `cur.pos == start_pos + size`. -/
def readMapBody (rv : Nat → Nat → Except Err (Value × Nat)) (b : Bytes)
    (p : Nat) : Except Err (Value × Nat) :=
  match readU8 b p with
  | .error e => .error e
  | .ok kt =>
    match readU8 b (p + 1) with
    | .error e => .error e
    | .ok vt =>
      match readU32 b (p + 2) with
      | .error e => .error e
      | .ok sz =>
        match readU32 b (p + 6) with
        | .error e => .error e
        | .ok cnt =>
          match readPairs rv kt vt cnt (p + 10) with
          | .error e => .error e
          | .ok (ps, q) =>
            if q = p + 6 + sz then .ok (.vMap (pyDictBy Value.beq ps), q)
            else .error (.sizeMismatch (p + 6 + sz) q)

/-- The EMBED / POINTER branch of `read_value`: name hash (u32), `size`
(u32), `start_pos` right after `size`, field count (u16), the fields, and
the assert `cur.pos == start_pos + size`. -/
def readEmbedBody (rv : Nat → Nat → Except Err (Value × Nat)) (hdb : HashDB)
    (b : Bytes) (p : Nat) : Except Err (Value × Nat) :=
  match readU32 b p with
  | .error e => .error e
  | .ok nh =>
    match readU32 b (p + 4) with
    | .error e => .error e
    | .ok sz =>
      match readU16 b (p + 8) with
      | .error e => .error e
      | .ok fc =>
        match readFields rv hdb b fc (p + 10) with
        | .error e => .error e
        | .ok (fs, q) =>
          if q = p + 8 + sz then
            .ok (.vObj (pyDict (("__type", .vPyStr (hdb.get nh)) :: fs)), q)
          else .error (.sizeMismatch (p + 8 + sz) q)

/-- read_value of ritobin_mac.py.  The first argument is an explicit
recursion bound (the source recursion terminates because the cursor strictly
advances; any bound larger than the buffer length is sufficient).  Returns
the decoded value together with the final cursor position.  The span asserts
of the LIST/MAP/EMBED branches become `sizeMismatch` errors. -/
def read_value (fuel : Nat) (hdb : HashDB) (b : Bytes) (typ p : Nat) :
    Except Err (Value × Nat) :=
  match fuel with
  | 0 => .error .fuel
  | f + 1 =>
    match toTy typ with
    | none => .error (.badTag typ)
    | some t =>
      match t with
      | .BOOL =>
        match readU8 b p with
        | .error e => .error e
        | .ok v => .ok (.vBool (v ≠ 0), p + 1)
      | .I8 =>
        match readU8 b p with
        | .error e => .error e
        | .ok v => .ok (.vInt (toSigned 8 v), p + 1)
      | .U8 =>
        match readU8 b p with
        | .error e => .error e
        | .ok v => .ok (.vNat v, p + 1)
      | .I16 =>
        match readU16 b p with
        | .error e => .error e
        | .ok v => .ok (.vInt (toSigned 16 v), p + 2)
      | .U16 =>
        match readU16 b p with
        | .error e => .error e
        | .ok v => .ok (.vNat v, p + 2)
      | .I32 =>
        match readU32 b p with
        | .error e => .error e
        | .ok v => .ok (.vInt (toSigned 32 v), p + 4)
      | .U32 =>
        match readU32 b p with
        | .error e => .error e
        | .ok v => .ok (.vNat v, p + 4)
      | .I64 =>
        match readU64 b p with
        | .error e => .error e
        | .ok v => .ok (.vInt (toSigned 64 v), p + 8)
      | .U64 =>
        match readU64 b p with
        | .error e => .error e
        | .ok v => .ok (.vNat v, p + 8)
      | .F32 =>
        match readU32 b p with
        | .error e => .error e
        | .ok v => .ok (.vF32 v, p + 4)
      | .STRING =>
        match pascal_string b p with
        | .error e => .error e
        | .ok (s, q) => .ok (.vStr s, q)
      | .HASH =>
        match readU32 b p with
        | .error e => .error e
        | .ok v => .ok (.vHashRef v, p + 4)
      | .LINK =>
        match readU32 b p with
        | .error e => .error e
        | .ok v => .ok (.vLinkRef v, p + 4)
      | .FILE =>
        match readU64 b p with
        | .error e => .error e
        | .ok v => .ok (.vFileRef v, p + 8)
      | .VEC2 =>
        match readU32 b p with
        | .error e => .error e
        | .ok x =>
          match readU32 b (p + 4) with
          | .error e => .error e
          | .ok y => .ok (.vVec [x, y], p + 8)
      | .VEC3 =>
        match readU32 b p with
        | .error e => .error e
        | .ok x =>
          match readU32 b (p + 4) with
          | .error e => .error e
          | .ok y =>
            match readU32 b (p + 8) with
            | .error e => .error e
            | .ok z => .ok (.vVec [x, y, z], p + 12)
      | .VEC4 =>
        match readU32 b p with
        | .error e => .error e
        | .ok x =>
          match readU32 b (p + 4) with
          | .error e => .error e
          | .ok y =>
            match readU32 b (p + 8) with
            | .error e => .error e
            | .ok z =>
              match readU32 b (p + 12) with
              | .error e => .error e
              | .ok w => .ok (.vVec [x, y, z, w], p + 16)
      | .MTX44 =>
        match takeN b p 64 with
        | .error e => .error e
        | .ok _ =>
          .ok (.vVec ((List.range 16).map fun i => leNat b (p + 4 * i) 4),
               p + 64)
      | .RGBA =>
        match takeN b p 4 with
        | .error e => .error e
        | .ok _ =>
          .ok (.vRGBA (byteAt b p) (byteAt b (p + 1)) (byteAt b (p + 2))
                 (byteAt b (p + 3)), p + 4)
      | .FLAG =>
        match readU8 b p with
        | .error e => .error e
        | .ok v => .ok (.vBool (v ≠ 0), p + 1)
      | .OPTION =>
        match readU8 b p with
        | .error e => .error e
        | .ok vt =>
          match readU8 b (p + 1) with
          | .error e => .error e
          | .ok cnt =>
            if cnt = 0 then .ok (.vNone, p + 2)
            else read_value f hdb b vt (p + 2)
      | .LIST | .LIST2 =>
        readListBody (fun t' p' => read_value f hdb b t' p') b p
      | .MAP =>
        readMapBody (fun t' p' => read_value f hdb b t' p') b p
      | .EMBED | .POINTER =>
        readEmbedBody (fun t' p' => read_value f hdb b t' p') hdb b p

/-- The linked-files loop of `parse_full_prop` / `read_prop`:
`cnt` pascal strings read back to back. -/
def readPascalList (b : Bytes) : Nat → Nat → Except Err (List Bytes × Nat)
  | 0,     p => .ok ([], p)
  | n + 1, p =>
    match pascal_string b p with
    | .error e => .error e
    | .ok (s, p1) =>
      match readPascalList b n p1 with
      | .error e => .error e
      | .ok (ss, p2) => .ok (s :: ss, p2)

/-- The entry-hash loop of `parse_full_prop`: `cnt` u32 reads in sequence. -/
def readU32List (b : Bytes) : Nat → Nat → Except Err (List Nat × Nat)
  | 0,     p => .ok ([], p)
  | n + 1, p =>
    match readU32 b p with
    | .error e => .error e
    | .ok h =>
      match readU32List b n (p + 4) with
      | .error e => .error e
      | .ok (hs, p2) => .ok (h :: hs, p2)

/-- One iteration of the root-entry loop of `parse_full_prop`: read
`entry_len` (u32), record `slice_start` just after it, read the embed header
(`key_hash` u32, `field_cnt` u16) and the fields, and check the assert
`cur.pos == slice_start + entry_len`; the result pairs the resolved root
hash with the embed dict. -/
def readRootEntry (fuel : Nat) (hdb : HashDB) (b : Bytes) (rootHash p : Nat) :
    Except Err ((String × Value) × Nat) :=
  match readU32 b p with
  | .error e => .error e
  | .ok entryLen =>
    match readU32 b (p + 4) with
    | .error e => .error e
    | .ok keyHash =>
      match readU16 b (p + 8) with
      | .error e => .error e
      | .ok fieldCnt =>
        match readFields (fun t' p' => read_value fuel hdb b t' p') hdb b
            fieldCnt (p + 10) with
        | .error e => .error e
        | .ok (fs, q) =>
          if q = (p + 4) + entryLen then
            .ok ((hdb.get rootHash,
                  .vObj (pyDict (("__type", .vPyStr (hdb.get keyHash)) :: fs))),
                 q)
          else .error (.sizeMismatch ((p + 4) + entryLen) q)

/-- The root-entry loop of `parse_full_prop` over the entry hash list. -/
def readRootEntries (fuel : Nat) (hdb : HashDB) (b : Bytes) :
    List Nat → Nat → Except Err (List (String × Value) × Nat)
  | [],        p => .ok ([], p)
  | rh :: rhs, p =>
    match readRootEntry fuel hdb b rh p with
    | .error e => .error e
    | .ok (e, p1) =>
      match readRootEntries fuel hdb b rhs p1 with
      | .error e => .error e
      | .ok (es, p2) => .ok (e :: es, p2)

/-- Result dict of `parse_full_prop`: version, the linked list (a key that
is present only when `version ≥ 2`), and the entries dict keyed by the
resolved root hashes. -/
structure PropResult where
  version : Nat
  linked : Option (List Bytes)
  entries : List (String × Value)

/-- The 4 magic bytes `PROP`. -/
def PROPmagic : Bytes := [0x50, 0x52, 0x4F, 0x50]

/-- The 4 magic bytes `PTCH`. -/
def PTCHmagic : Bytes := [0x50, 0x54, 0x43, 0x48]

/-- parse_full_prop of ritobin_mac.py (the file read and the `HashDB`
construction stay outside the embedding; the buffer arrives as bytes).
Only a `PROP` magic is accepted; then version, the linked files when
`version ≥ 2`, the entry-hash table, and the root entries decoded in place
with the `assert cur.pos == slice_start + entry_len` span check. -/
def parse_full_prop (fuel : Nat) (hdb : HashDB) (b : Bytes) :
    Except Err PropResult :=
  match takeN b 0 4 with
  | .error e => .error e
  | .ok magic =>
    if magic = PROPmagic then
      match readU32 b 4 with
      | .error e => .error e
      | .ok version =>
        let afterLinked : Except Err (Option (List Bytes) × Nat) :=
          if version ≥ 2 then
            match readU32 b 8 with
            | .error e => .error e
            | .ok linkedCnt =>
              match readPascalList b linkedCnt 12 with
              | .error e => .error e
              | .ok (ss, p1) => .ok (some ss, p1)
          else .ok (none, 8)
        match afterLinked with
        | .error e => .error e
        | .ok (linked, p1) =>
          match readU32 b p1 with
          | .error e => .error e
          | .ok entryCnt =>
            match readU32List b entryCnt (p1 + 4) with
            | .error e => .error e
            | .ok (hashes, p2) =>
              match readRootEntries fuel hdb b hashes p2 with
              | .error e => .error e
              | .ok (es, _) =>
                .ok ⟨version, linked, pyDict es⟩
    else .error .badMagic

/-- Zstandard frame magic `28 B5 2F FD` that triggers the decompression
collaborator. -/
def ZSTD_MAGIC : Bytes := [0x28, 0xB5, 0x2F, 0xFD]

/-- _maybe_decompress of bin_parser.py / extract.py, with the zstd
decompressor abstracted as the external collaborator `dcmp`: payloads whose
first four bytes are the magic are passed through `dcmp`, all others are
returned unchanged. -/
def _maybe_decompress (dcmp : Bytes → Bytes) (data : Bytes) : Bytes :=
  if data.take 4 = ZSTD_MAGIC then dcmp data else data

/-- Recursion core of `_read_cstring` over the bytes remaining after the
cursor: stop at EOF or at a null byte (the null byte is consumed; at EOF the
position is unchanged). -/
def cstringGo : List Nat → Nat → Bytes × Nat
  | [],        p => ([], p)
  | c :: rest, p =>
    if c = 0 then ([], p + 1)
    else
      let r := cstringGo rest (p + 1)
      (c :: r.1, r.2)

/-- _read_cstring of bin_parser.py: bytes up to a null terminator (or EOF),
never an error. -/
def _read_cstring (b : Bytes) (p : Nat) : Bytes × Nat :=
  cstringGo (b.drop p) p

/-- The linked-files loop of `parse_bin`: `cnt` null-terminated strings. -/
def readCStrings (b : Bytes) : Nat → Nat → List Bytes × Nat
  | 0,     p => ([], p)
  | n + 1, p =>
    let r := _read_cstring b p
    let rs := readCStrings b n r.2
    (r.1 :: rs.1, rs.2)

/-- `struct.unpack("<II", buf.read(8))`: two u32s, or `struct.error` when
fewer than 8 bytes remain. -/
def readU32x2 (b : Bytes) (p : Nat) : Except Err (Nat × Nat) :=
  if p + 8 ≤ b.length then .ok (leNat b p 4, leNat b (p + 4) 4)
  else .error (.eof p 8)

/-- `struct.unpack("<IIH", buf.read(10))`: the root-entry header of
`parse_bin` (entry_len, entry_hash, field_cnt). -/
def readEntryHeader (b : Bytes) (p : Nat) : Except Err (Nat × Nat × Nat) :=
  if p + 10 ≤ b.length then
    .ok (leNat b p 4, leNat b (p + 4) 4, leNat b (p + 8) 2)
  else .error (.eof p 10)

/-- `struct.unpack("<NI", buf.read(4 * N))`: the entry-type hash table. -/
def readU32Array (b : Bytes) (p cnt : Nat) : Except Err (List Nat) :=
  if p + 4 * cnt ≤ b.length then
    .ok ((List.range cnt).map fun i => leNat b (p + 4 * i) 4)
  else .error (.eof p (4 * cnt))

/-- `buf.read(1)[0]`: one byte, `IndexError` (modelled as EOF) at the end. -/
def readByte1 (b : Bytes) (p : Nat) : Except Err Nat :=
  if p + 1 ≤ b.length then .ok (byteAt b p) else .error (.eof p 1)

/-- TYPE_NAMES of bin_parser.py. -/
def TYPE_NAMES : Nat → Option String
  | 0  => some "NONE"
  | 1  => some "BOOL"
  | 2  => some "I8"
  | 3  => some "U8"
  | 4  => some "I16"
  | 5  => some "U16"
  | 6  => some "I32"
  | 7  => some "U32"
  | 8  => some "I64"
  | 9  => some "U64"
  | 10 => some "F32"
  | 11 => some "VEC2"
  | 12 => some "VEC3"
  | 13 => some "VEC4"
  | 14 => some "MAT4"
  | 15 => some "RGBA"
  | 16 => some "STRING"
  | 17 => some "HASH"
  | 18 => some "ARRAY"
  | 19 => some "STRUCT"
  | 20 => some "EMBED"
  | 21 => some "LINK"
  | 22 => some "OPTION"
  | 23 => some "MAP"
  | 24 => some "FLAG"
  | _  => none

/-- `TYPE_NAMES.get(type_id, f"UNKNOWN({type_id})")`. -/
def typeNameOf (tid : Nat) : String :=
  match TYPE_NAMES tid with
  | some s => s
  | none   => "UNKNOWN(" ++ toString tid ++ ")"

/-- One field-header record of `parse_bin` (name, raw type id, type name). -/
structure FieldInfo where
  field : String
  typeId : Nat
  type_name : String
  deriving DecidableEq, Repr

/-- One root-entry record of `parse_bin`. -/
structure BinEntry where
  entry : String
  typeHash : Nat
  fieldCnt : Nat
  fields : List FieldInfo
  deriving DecidableEq, Repr

/-- Result of `parse_bin` (the `file` key of the source dict names the
input file and is not part of the decode). -/
structure BinResult where
  version : Nat
  links : List Bytes
  entries : List BinEntry
  deriving DecidableEq, Repr

/-- The field-header loop of `parse_bin`: `field_cnt` records of a u32 name
hash followed by one type-id byte — field values are not decoded here. -/
def readBinFields (unh : RiotHashUnhasher) (b : Bytes) :
    Nat → Nat → Except Err (List FieldInfo × Nat)
  | 0,     p => .ok ([], p)
  | n + 1, p =>
    match readU32 b p with
    | .error e => .error e
    | .ok fh =>
      match readByte1 b (p + 4) with
      | .error e => .error e
      | .ok tid =>
        match readBinFields unh b n (p + 5) with
        | .error e => .error e
        | .ok (fs, p2) =>
          .ok (⟨unh.unhash fh, tid, typeNameOf tid⟩ :: fs, p2)

/-- The root-entry loop of `parse_bin`, one iteration per entry-type hash:
after reading the 10-byte header and the field headers, the cursor is
unconditionally repositioned to `entry_start + entry_len`
(`buf.seek(entry_start + entry_len)`) — no span check is performed. -/
def readBinEntries (unh : RiotHashUnhasher) (b : Bytes) :
    List Nat → Nat → Except Err (List BinEntry × Nat)
  | [],        p => .ok ([], p)
  | th :: ths, p =>
    match readEntryHeader b p with
    | .error e => .error e
    | .ok (entryLen, entryHash, fieldCnt) =>
      match readBinFields unh b fieldCnt (p + 10) with
      | .error e => .error e
      | .ok (fs, _) =>
        match readBinEntries unh b ths (p + entryLen) with
        | .error e => .error e
        | .ok (es, p2) =>
          .ok (⟨unh.unhash entryHash, th, fieldCnt, fs⟩ :: es, p2)

/-- Offset of the `PROP` magic inside the (maybe-decompressed) buffer of
`parse_bin`: 12 when the buffer opens with the `PTCH` wrapper, else 0. -/
def ptchOffset (b : Bytes) : Nat := if b.take 4 = PTCHmagic then 12 else 0

/-- Tail of `parse_bin` once version and entry count are fixed: the
entry-count sanity check, the linked files (null-terminated strings, only
when `version >= 2`), the entry-type hash table, and the root entries. -/
def parse_bin_rest (unh : RiotHashUnhasher) (b : Bytes)
    (p0 version entryCnt : Nat) : Except Err BinResult :=
  if entryCnt * 4 > b.length - (p0 + 12) then .error .badEntryCnt
  else
    let afterLinks : Except Err (List Bytes × Nat) :=
      if version ≥ 2 then
        match readU32 b (p0 + 12) with
        | .error e => .error e
        | .ok linkCnt => .ok (readCStrings b linkCnt (p0 + 16))
      else .ok ([], p0 + 12)
    match afterLinks with
    | .error e => .error e
    | .ok (links, p1) =>
      match readU32Array b p1 entryCnt with
      | .error e => .error e
      | .ok typeHashes =>
        match readBinEntries unh b typeHashes (p1 + 4 * entryCnt) with
        | .error e => .error e
        | .ok (entries, _) => .ok ⟨version, links, entries⟩

/-- parse_bin of bin_parser.py, with the zstd collaborator abstracted as
`dcmp`.  After the optional `PTCH` skip and the `PROP` magic, the two
following u32s are disambiguated by the `≤ 10` heuristic (`a` wins when both
qualify); the rest of the decode is `parse_bin_rest`. -/
def parse_bin (unh : RiotHashUnhasher) (dcmp : Bytes → Bytes) (raw : Bytes) :
    Except Err BinResult :=
  let b := _maybe_decompress dcmp raw
  let p0 := ptchOffset b
  if byteSlice b p0 (p0 + 4) = PROPmagic then
    match readU32x2 b (p0 + 4) with
    | .error e => .error e
    | .ok (a, c) =>
      if a ≤ 10 then parse_bin_rest unh b p0 a c
      else if c ≤ 10 then parse_bin_rest unh b p0 c a
      else .error .noVersion
  else .error .badMagic

/-- Configuration constants of extract.py. -/
def TABLE_OFFSET : Nat := 0x120

/-- Entry stride of the chunk table: u64 hash, u32 offset, u32 size. -/
def ENTRY_SIZE : Nat := 16

/-- Scan bound of the chunk-table loop. -/
def MAX_CHUNKS : Nat := 50000

/-- Manifest chunk hash (`pathHashes[]` carrier) of extract.py. -/
def MANIFEST_HASH : Nat := 0x0000000300000180

/-- Hash field of table entry `n` (`struct.unpack_from("<QII", ...)`,
evaluated only after the loop's bounds check). -/
def entryHash (wad : Bytes) (n : Nat) : Nat :=
  leNat wad (TABLE_OFFSET + n * ENTRY_SIZE) 8

/-- Offset field of table entry `n`. -/
def entryLoc (wad : Bytes) (n : Nat) : Nat :=
  leNat wad (TABLE_OFFSET + n * ENTRY_SIZE + 8) 4

/-- Size field of table entry `n`. -/
def entrySize (wad : Bytes) (n : Nat) : Nat :=
  leNat wad (TABLE_OFFSET + n * ENTRY_SIZE + 12) 4

/-- Stored payload of a surviving entry:
`_maybe_decompress(wad_bytes[loc:loc+size])`. -/
def entryPayload (dcmp : Bytes → Bytes) (wad : Bytes) (loc size : Nat) :
    Bytes :=
  _maybe_decompress dcmp (byteSlice wad loc (loc + size))

/-- Step 1 of extract_wad of extract.py: the chunk-table scan.  `k` is the
remaining iteration budget (started at `MAX_CHUNKS`), `n` the current entry
index, `acc` the dict built so far.  The loop breaks when an entry would run
past the buffer or is all-zero, skips entries with `size == 0` or
`loc + size > len`, and otherwise inserts
`chunks[h] = _maybe_decompress(wad_bytes[loc:loc+size])`. -/
def extractLoop (dcmp : Bytes → Bytes) (wad : Bytes) :
    Nat → Nat → List (Nat × Bytes) → List (Nat × Bytes)
  | 0,     _, acc => acc
  | k + 1, n, acc =>
    if TABLE_OFFSET + n * ENTRY_SIZE + ENTRY_SIZE > wad.length then acc
    else
      let h := entryHash wad n
      let loc := entryLoc wad n
      let size := entrySize wad n
      if h = 0 ∧ loc = 0 ∧ size = 0 then acc
      else if size = 0 ∨ loc + size > wad.length then
        extractLoop dcmp wad k (n + 1) acc
      else
        extractLoop dcmp wad k (n + 1)
          (pyInsert acc h (entryPayload dcmp wad loc size))

/-- The hash → payload dict produced by step 1 of `extract_wad` (steps 2 and
3 of the source resolve names and write files and are outside the decoder
core). -/
def extract_wad_chunks (dcmp : Bytes → Bytes) (wad : Bytes) :
    List (Nat × Bytes) :=
  extractLoop dcmp wad MAX_CHUNKS 0 []

/-- The surviving `(hash, offset, size)` triples of the chunk-table scan, in
scan order and without deduplication (the entries whose payloads the loop
inserts). -/
def scanTriples (wad : Bytes) : Nat → Nat → List (Nat × Nat × Nat)
  | 0,     _ => []
  | k + 1, n =>
    if TABLE_OFFSET + n * ENTRY_SIZE + ENTRY_SIZE > wad.length then []
    else
      let h := entryHash wad n
      let loc := entryLoc wad n
      let size := entrySize wad n
      if h = 0 ∧ loc = 0 ∧ size = 0 then []
      else if size = 0 ∨ loc + size > wad.length then
        scanTriples wad k (n + 1)
      else (h, loc, size) :: scanTriples wad k (n + 1)

/-- The surviving `(hash, payload)` pairs of the scan in scan order, still
with duplicate hashes (the insertion sequence of the dict). -/
def scanPayloads (dcmp : Bytes → Bytes) (wad : Bytes) (k n : Nat) :
    List (Nat × Bytes) :=
  (scanTriples wad k n).map fun t => (t.1, entryPayload dcmp wad t.2.1 t.2.2)

section DictLemmas

variable {α β : Type} [DecidableEq α]

/-- Membership after a dict insert: the element was already present or is
the inserted pair. -/
lemma pyInsert_mem (l : List (α × β)) (k : α) (v : β) (x : α × β)
    (hx : x ∈ pyInsert l k v) : x ∈ l ∨ x = (k, v) := by
  induction l with
  | nil =>
    simp only [pyInsert, List.mem_singleton] at hx
    exact Or.inr hx
  | cons kv rest ih =>
    obtain ⟨k1, v1⟩ := kv
    simp only [pyInsert] at hx
    by_cases hk : k1 = k
    · rw [if_pos hk] at hx
      rcases List.mem_cons.mp hx with h | h
      · subst hk; exact Or.inr h
      · exact Or.inl (List.mem_cons_of_mem _ h)
    · rw [if_neg hk] at hx
      rcases List.mem_cons.mp hx with h | h
      · exact Or.inl (h ▸ List.mem_cons_self _ _)
      · rcases ih h with h' | h'
        · exact Or.inl (List.mem_cons_of_mem _ h')
        · exact Or.inr h'

/-- Membership after folding dict inserts over a pair list. -/
lemma mem_foldl_pyInsert (l : List (α × β)) (acc : List (α × β)) (x : α × β)
    (hx : x ∈ l.foldl (fun m kv => pyInsert m kv.1 kv.2) acc) :
    x ∈ acc ∨ x ∈ l := by
  induction l generalizing acc with
  | nil => exact Or.inl hx
  | cons kv rest ih =>
    simp only [List.foldl_cons] at hx
    rcases ih (pyInsert acc kv.1 kv.2) hx with h | h
    · rcases pyInsert_mem acc kv.1 kv.2 x h with h' | h'
      · exact Or.inl h'
      · exact Or.inr (h' ▸ List.mem_cons_self _ _)
    · exact Or.inr (List.mem_cons_of_mem _ h)

/-- Dict lookup after a dict insert. -/
lemma pyLookup_pyInsert (l : List (α × β)) (k : α) (v : β) (q : α) :
    pyLookup (pyInsert l k v) q = if k = q then some v else pyLookup l q := by
  induction l with
  | nil =>
    by_cases hq : k = q <;> simp [pyInsert, pyLookup, hq]
  | cons kv rest ih =>
    obtain ⟨k1, v1⟩ := kv
    simp only [pyInsert]
    by_cases hk : k1 = k
    · subst hk
      rw [if_pos rfl]
      by_cases hq : k1 = q <;> simp [pyLookup, hq]
    · rw [if_neg hk]
      by_cases hq : k1 = q
      · subst hq
        simp [pyLookup, Ne.symm hk]
      · simp [pyLookup, hq, ih]

/-- Dict lookup over a concatenation: the left part has priority. -/
lemma pyLookup_append (l1 l2 : List (α × β)) (q : α) :
    pyLookup (l1 ++ l2) q =
      match pyLookup l1 q with
      | some v => some v
      | none   => pyLookup l2 q := by
  induction l1 with
  | nil => simp [pyLookup]
  | cons kv rest ih =>
    obtain ⟨k1, v1⟩ := kv
    by_cases hq : k1 = q <;> simp [pyLookup, hq, ih]

/-- Dict lookup after building by repeated inserts: the latest binding of a
key wins (lookup on the reversed insertion sequence), falling back to the
starting dict. -/
lemma pyLookup_foldl (l : List (α × β)) (acc : List (α × β)) (q : α) :
    pyLookup (l.foldl (fun m kv => pyInsert m kv.1 kv.2) acc) q =
      match pyLookup l.reverse q with
      | some v => some v
      | none   => pyLookup acc q := by
  induction l generalizing acc with
  | nil => simp [pyLookup]
  | cons kv rest ih =>
    obtain ⟨k1, v1⟩ := kv
    simp only [List.foldl_cons, List.reverse_cons]
    rw [ih, pyLookup_append]
    cases hpl : pyLookup rest.reverse q with
    | some w => rfl
    | none =>
      rw [pyLookup_pyInsert]
      by_cases hq : k1 = q <;> simp [pyLookup, hq]

end DictLemmas

/-- The chunk-table loop is the fold of dict inserts over the surviving
`(hash, payload)` sequence. -/
lemma extractLoop_eq_foldl (dcmp : Bytes → Bytes) (wad : Bytes) :
    ∀ k n acc, extractLoop dcmp wad k n acc =
      (scanPayloads dcmp wad k n).foldl
        (fun m kv => pyInsert m kv.1 kv.2) acc := by
  intro k
  induction k with
  | zero => intro n acc; rfl
  | succ k ih =>
    intro n acc
    simp only [extractLoop, scanTriples, scanPayloads]
    by_cases h1 : TABLE_OFFSET + n * ENTRY_SIZE + ENTRY_SIZE > wad.length
    · rw [if_pos h1, if_pos h1]; rfl
    · rw [if_neg h1, if_neg h1]
      by_cases h2 : entryHash wad n = 0 ∧ entryLoc wad n = 0 ∧
          entrySize wad n = 0
      · rw [if_pos h2, if_pos h2]; rfl
      · rw [if_neg h2, if_neg h2]
        by_cases h3 : entrySize wad n = 0 ∨
            entryLoc wad n + entrySize wad n > wad.length
        · rw [if_pos h3, if_pos h3]
          exact ih (n + 1) acc
        · rw [if_neg h3, if_neg h3]
          simp only [List.map_cons, List.foldl_cons]
          exact ih (n + 1) _

/-- A triple surviving the scan is in bounds, has nonzero size, and comes
from the table fields of some entry index. -/
lemma mem_scanTriples (wad : Bytes) :
    ∀ k n h loc size, (h, loc, size) ∈ scanTriples wad k n →
      size ≠ 0 ∧ loc + size ≤ wad.length ∧
      ∃ m, n ≤ m ∧ entryHash wad m = h ∧ entryLoc wad m = loc ∧
        entrySize wad m = size := by
  intro k
  induction k with
  | zero => intro n h loc size hx; exact absurd hx (List.not_mem_nil _)
  | succ k ih =>
    intro n h loc size hx
    simp only [scanTriples] at hx
    by_cases h1 : TABLE_OFFSET + n * ENTRY_SIZE + ENTRY_SIZE > wad.length
    · rw [if_pos h1] at hx; exact absurd hx (List.not_mem_nil _)
    · rw [if_neg h1] at hx
      by_cases h2 : entryHash wad n = 0 ∧ entryLoc wad n = 0 ∧
          entrySize wad n = 0
      · rw [if_pos h2] at hx; exact absurd hx (List.not_mem_nil _)
      · rw [if_neg h2] at hx
        by_cases h3 : entrySize wad n = 0 ∨
            entryLoc wad n + entrySize wad n > wad.length
        · rw [if_pos h3] at hx
          obtain ⟨hs, hb, m, hm, rest⟩ := ih (n + 1) h loc size hx
          exact ⟨hs, hb, m, by omega, rest⟩
        · rw [if_neg h3] at hx
          push_neg at h3
          rcases List.mem_cons.mp hx with heq | hmem
          · injection heq with eh rest'
            injection rest' with el es
            subst eh; subst el; subst es
            exact ⟨h3.1, h3.2, n, le_refl n, rfl, rfl, rfl⟩
          · obtain ⟨hs, hb, m, hm, rest⟩ := ih (n + 1) h loc size hmem
            exact ⟨hs, hb, m, by omega, rest⟩

/-- Provenance of every pair of the chunks dict: it is the
maybe-decompressed slice of a surviving table entry. -/
lemma mem_extract_chunks (dcmp : Bytes → Bytes) (wad : Bytes) (h : Nat)
    (pl : Bytes) (hx : (h, pl) ∈ extract_wad_chunks dcmp wad) :
    ∃ loc size, (h, loc, size) ∈ scanTriples wad MAX_CHUNKS 0 ∧
      size ≠ 0 ∧ loc + size ≤ wad.length ∧
      pl = entryPayload dcmp wad loc size := by
  rw [extract_wad_chunks, extractLoop_eq_foldl] at hx
  rcases mem_foldl_pyInsert _ _ _ hx with hacc | hmem
  · exact absurd hacc (List.not_mem_nil _)
  · simp only [scanPayloads, List.mem_map] at hmem
    obtain ⟨⟨h', loc, size⟩, htr, heq⟩ := hmem
    injection heq with eh epl
    subst eh
    obtain ⟨hs, hb, _⟩ := mem_scanTriples wad MAX_CHUNKS 0 h' loc size htr
    exact ⟨loc, size, htr, hs, hb, epl.symm⟩

/-- A successful LIST/LIST2 decode ends exactly at the position right after
the `size` field plus `size`. -/
lemma readListBody_ok_end (rv : Nat → Nat → Except Err (Value × Nat))
    (b : Bytes) (p : Nat) (v : Value) (q : Nat)
    (h : readListBody rv b p = .ok (v, q)) :
    ∃ sz, readU32 b (p + 1) = .ok sz ∧ q = p + 5 + sz := by
  unfold readListBody at h
  split at h
  · exact Except.noConfusion h
  next vt hvt =>
    split at h
    · exact Except.noConfusion h
    next sz hsz =>
      split at h
      · exact Except.noConfusion h
      next cnt hcnt =>
        split at h
        · exact Except.noConfusion h
        next xs q1 hseq =>
          split at h
          next hq => cases h; exact ⟨sz, hsz, hq⟩
          next hq => exact Except.noConfusion h

/-- When the LIST/LIST2 elements decode but end away from the declared
span, the branch produces the `sizeMismatch` error of the source assert. -/
lemma readListBody_mismatch (rv : Nat → Nat → Except Err (Value × Nat))
    (b : Bytes) (p vt sz cnt : Nat) (xs : List Value) (q : Nat)
    (h1 : readU8 b p = .ok vt) (h2 : readU32 b (p + 1) = .ok sz)
    (h3 : readU32 b (p + 5) = .ok cnt)
    (h4 : readSeq rv vt cnt (p + 9) = .ok (xs, q)) (hne : q ≠ p + 5 + sz) :
    readListBody rv b p = .error (.sizeMismatch (p + 5 + sz) q) := by
  unfold readListBody
  rw [h1]
  simp only
  rw [h2]
  simp only
  rw [h3]
  simp only
  rw [h4]
  simp only
  rw [if_neg hne]

/-- A successful MAP decode ends exactly at the position right after the
`size` field plus `size`. -/
lemma readMapBody_ok_end (rv : Nat → Nat → Except Err (Value × Nat))
    (b : Bytes) (p : Nat) (v : Value) (q : Nat)
    (h : readMapBody rv b p = .ok (v, q)) :
    ∃ sz, readU32 b (p + 2) = .ok sz ∧ q = p + 6 + sz := by
  unfold readMapBody at h
  split at h
  · exact Except.noConfusion h
  next kt hkt =>
    split at h
    · exact Except.noConfusion h
    next vt hvt =>
      split at h
      · exact Except.noConfusion h
      next sz hsz =>
        split at h
        · exact Except.noConfusion h
        next cnt hcnt =>
          split at h
          · exact Except.noConfusion h
          next ps q1 hpairs =>
            split at h
            next hq => cases h; exact ⟨sz, hsz, hq⟩
            next hq => exact Except.noConfusion h

/-- MAP pairs that decode but end away from the declared span produce the
`sizeMismatch` error. -/
lemma readMapBody_mismatch (rv : Nat → Nat → Except Err (Value × Nat))
    (b : Bytes) (p kt vt sz cnt : Nat) (ps : List (Value × Value)) (q : Nat)
    (h1 : readU8 b p = .ok kt) (h2 : readU8 b (p + 1) = .ok vt)
    (h3 : readU32 b (p + 2) = .ok sz) (h4 : readU32 b (p + 6) = .ok cnt)
    (h5 : readPairs rv kt vt cnt (p + 10) = .ok (ps, q))
    (hne : q ≠ p + 6 + sz) :
    readMapBody rv b p = .error (.sizeMismatch (p + 6 + sz) q) := by
  unfold readMapBody
  rw [h1]
  simp only
  rw [h2]
  simp only
  rw [h3]
  simp only
  rw [h4]
  simp only
  rw [h5]
  simp only
  rw [if_neg hne]

/-- A successful EMBED/POINTER decode ends exactly at the position right
after the `size` field plus `size`. -/
lemma readEmbedBody_ok_end (rv : Nat → Nat → Except Err (Value × Nat))
    (hdb : HashDB) (b : Bytes) (p : Nat) (v : Value) (q : Nat)
    (h : readEmbedBody rv hdb b p = .ok (v, q)) :
    ∃ sz, readU32 b (p + 4) = .ok sz ∧ q = p + 8 + sz := by
  unfold readEmbedBody at h
  split at h
  · exact Except.noConfusion h
  next nh hnh =>
    split at h
    · exact Except.noConfusion h
    next sz hsz =>
      split at h
      · exact Except.noConfusion h
      next fc hfc =>
        split at h
        · exact Except.noConfusion h
        next fs q1 hfields =>
          split at h
          next hq => cases h; exact ⟨sz, hsz, hq⟩
          next hq => exact Except.noConfusion h

/-- EMBED/POINTER fields that decode but end away from the declared span
produce the `sizeMismatch` error. -/
lemma readEmbedBody_mismatch (rv : Nat → Nat → Except Err (Value × Nat))
    (hdb : HashDB) (b : Bytes) (p nh sz fc : Nat)
    (fs : List (String × Value)) (q : Nat)
    (h1 : readU32 b p = .ok nh) (h2 : readU32 b (p + 4) = .ok sz)
    (h3 : readU16 b (p + 8) = .ok fc)
    (h4 : readFields rv hdb b fc (p + 10) = .ok (fs, q))
    (hne : q ≠ p + 8 + sz) :
    readEmbedBody rv hdb b p = .error (.sizeMismatch (p + 8 + sz) q) := by
  unfold readEmbedBody
  rw [h1]
  simp only
  rw [h2]
  simp only
  rw [h3]
  simp only
  rw [h4]
  simp only
  rw [if_neg hne]

/-- A successful root-entry decode of `parse_full_prop` ends exactly at
`slice_start + entry_len` (the position right after the length field plus
the declared length). -/
lemma readRootEntry_ok_end (fuel : Nat) (hdb : HashDB) (b : Bytes)
    (rh p : Nat) (e : String × Value) (q : Nat)
    (h : readRootEntry fuel hdb b rh p = .ok (e, q)) :
    ∃ len, readU32 b p = .ok len ∧ q = (p + 4) + len := by
  unfold readRootEntry at h
  split at h
  · exact Except.noConfusion h
  next len hlen =>
    split at h
    · exact Except.noConfusion h
    next kh hkh =>
      split at h
      · exact Except.noConfusion h
      next fc hfc =>
        split at h
        · exact Except.noConfusion h
        next fs q1 hfs =>
          split at h
          next hq => cases h; exact ⟨len, hlen, hq⟩
          next hq => exact Except.noConfusion h

/-- Root-entry fields that decode but end away from the declared span make
`parse_full_prop`'s assert fail (a `sizeMismatch` error), aborting the
decode. -/
lemma readRootEntry_mismatch (fuel : Nat) (hdb : HashDB) (b : Bytes)
    (rh p len kh fc : Nat) (fs : List (String × Value)) (q : Nat)
    (h1 : readU32 b p = .ok len) (h2 : readU32 b (p + 4) = .ok kh)
    (h3 : readU16 b (p + 8) = .ok fc)
    (h4 : readFields (fun t' p' => read_value fuel hdb b t' p') hdb b fc
            (p + 10) = .ok (fs, q))
    (hne : q ≠ (p + 4) + len) :
    readRootEntry fuel hdb b rh p =
      .error (.sizeMismatch ((p + 4) + len) q) := by
  unfold readRootEntry
  rw [h1]
  simp only
  rw [h2]
  simp only
  rw [h3]
  simp only
  rw [h4]
  simp only
  rw [if_neg hne]

/-- The version recorded in a successful `parse_bin` result is the value
the heuristic selected. -/
lemma parse_bin_rest_version (unh : RiotHashUnhasher) (b : Bytes)
    (p0 version entryCnt : Nat) (r : BinResult)
    (h : parse_bin_rest unh b p0 version entryCnt = .ok r) :
    r.version = version := by
  unfold parse_bin_rest at h
  split at h
  · exact Except.noConfusion h
  · simp only [] at h
    split at h
    · exact Except.noConfusion h
    next links p1 hlinks =>
      split at h
      · exact Except.noConfusion h
      next typeHashes hth =>
        split at h
        · exact Except.noConfusion h
        next entries p2 hents =>
          cases h
          rfl

/-- When neither of the two u32 candidates after the magic is at most 10,
`parse_bin` fails with the unresolvable-version error. -/
lemma parse_bin_noVersion (unh : RiotHashUnhasher) (dcmp : Bytes → Bytes)
    (raw : Bytes) (a c : Nat)
    (hmagic : byteSlice (_maybe_decompress dcmp raw)
        (ptchOffset (_maybe_decompress dcmp raw))
        (ptchOffset (_maybe_decompress dcmp raw) + 4) = PROPmagic)
    (h2 : readU32x2 (_maybe_decompress dcmp raw)
        (ptchOffset (_maybe_decompress dcmp raw) + 4) = .ok (a, c))
    (ha : 10 < a) (hc : 10 < c) :
    parse_bin unh dcmp raw = .error .noVersion := by
  unfold parse_bin
  rw [if_pos hmagic, h2]
  simp only
  rw [if_neg (by omega : ¬a ≤ 10), if_neg (by omega : ¬c ≤ 10)]

/-- Characterization of the version heuristic on a successful `parse_bin`:
the first candidate wins whenever it is at most 10 (also when both
candidates qualify); the second is used only when the first exceeds 10. -/
lemma parse_bin_version_heuristic (unh : RiotHashUnhasher)
    (dcmp : Bytes → Bytes) (raw : Bytes) (r : BinResult) (a c : Nat)
    (h : parse_bin unh dcmp raw = .ok r)
    (h2 : readU32x2 (_maybe_decompress dcmp raw)
        (ptchOffset (_maybe_decompress dcmp raw) + 4) = .ok (a, c)) :
    (a ≤ 10 ∧ r.version = a) ∨ (10 < a ∧ c ≤ 10 ∧ r.version = c) := by
  unfold parse_bin at h
  simp only [] at h
  split at h
  next hmagic =>
    split at h
    next e heq =>
      rw [h2] at heq
      exact Except.noConfusion heq
    next a' c' heq =>
      rw [h2] at heq
      injection heq with hpair
      injection hpair with ea ec
      subst ea; subst ec
      by_cases ha : a ≤ 10
      · rw [if_pos ha] at h
        exact Or.inl ⟨ha, parse_bin_rest_version _ _ _ _ _ _ h⟩
      · rw [if_neg ha] at h
        by_cases hc : c ≤ 10
        · rw [if_pos hc] at h
          exact Or.inr ⟨by omega, hc, parse_bin_rest_version _ _ _ _ _ _ h⟩
        · rw [if_neg hc] at h
          exact Except.noConfusion h
  next hmagic =>
    exact Except.noConfusion h

/-- Python hex formatting always emits at least one digit. -/
lemma hexRep_ne_nil (f n : Nat) : hexRep (f + 1) n ≠ [] := by
  simp only [hexRep]
  split
  · simp
  · simp

/-- A value below `16 ^ w` has at most `w` hex digits. -/
lemma hexRep_length_le :
    ∀ f w n : Nat, 0 < w → n < 16 ^ w → n < f → (hexRep f n).length ≤ w := by
  intro f
  induction f with
  | zero => intro w n hw hn hf; omega
  | succ f ih =>
    intro w n hw hn hf
    simp only [hexRep]
    split
    next h16 => simpa using hw
    next h16 =>
      push_neg at h16
      match w, hw with
      | w + 1, _ =>
        have hwne : w ≠ 0 := by
          rintro rfl
          simp at hn
          omega
        have hdiv : n / 16 < 16 ^ w := by
          rw [pow_succ] at hn
          exact (Nat.div_lt_iff_lt_mul (by norm_num)).mpr hn
        have hdivf : n / 16 < f := by
          have : n / 16 < n := Nat.div_lt_self (by omega) (by norm_num)
          omega
        have hlen := ih w (n / 16) (by omega) hdiv hdivf
        simp only [List.length_append, List.length_singleton]
        omega

/-- Zero-padded hex formatting of a value below `16 ^ w` has exactly
width `w`. -/
lemma pyHexString_length (up : Bool) (w n : Nat) (hw : 0 < w)
    (hn : n < 16 ^ w) : (pyHexString up w n).length = w := by
  have h1 : (hexRep (n + 1) n).length ≤ w :=
    hexRep_length_le (n + 1) w n hw hn (by omega)
  have h2 : (hexRep (n + 1) n).length ≠ 0 := by
    intro hx
    exact hexRep_ne_nil n n (List.length_eq_zero.mp hx)
  unfold pyHexString
  simp only [String.length, String.mk, List.length_append,
    List.length_replicate, List.length_map]
  omega

/-- A pascal string consumes exactly its u16 length prefix plus that many
bytes, which it returns as a slice: the delimiting is determined by the
prefix alone, independently of any null bytes in the payload. -/
lemma pascal_string_spec (b : Bytes) (p n : Nat)
    (h : readU16 b p = .ok n) (hle : p + 2 + n ≤ b.length) :
    pascal_string b p = .ok (byteSlice b (p + 2) (p + 2 + n), p + 2 + n) := by
  unfold pascal_string
  rw [h]
  simp only
  unfold takeN
  rw [if_pos hle]

/-- When `parse_full_prop` succeeds with `version >= 2`, the linked-file
list of the result is the u32 `linkedCount` read at offset 8 followed by
exactly that many pascal strings. -/
lemma parse_full_prop_linked (fuel : Nat) (hdb : HashDB) (b : Bytes)
    (r : PropResult) (h : parse_full_prop fuel hdb b = .ok r)
    (hver : 2 ≤ r.version) :
    ∃ cnt ss p1, readU32 b 8 = .ok cnt ∧
      readPascalList b cnt 12 = .ok (ss, p1) ∧ r.linked = some ss := by
  unfold parse_full_prop at h
  split at h
  · exact Except.noConfusion h
  next magic hmagic =>
    split at h
    · split at h
      · exact Except.noConfusion h
      next version hv =>
        simp only [] at h
        split at h
        · exact Except.noConfusion h
        next linked p1 hlinks =>
          split at h
          · exact Except.noConfusion h
          next entryCnt hec =>
            split at h
            · exact Except.noConfusion h
            next hashes p2 hhs =>
              split at h
              · exact Except.noConfusion h
              next es p3 hes =>
                cases h
                split at hlinks
                next hge =>
                  split at hlinks
                  · exact Except.noConfusion hlinks
                  next cnt hcnt =>
                    split at hlinks
                    · exact Except.noConfusion hlinks
                    next ss pp hpl =>
                      cases hlinks
                      exact ⟨cnt, ss, p1, hcnt, hpl, rfl⟩
                next hge => exact absurd hver hge
    · exact Except.noConfusion h

/-- A well-formed LIST of five U8 elements: nested tag 3, byteSize 9
(count field plus five bytes), count 5, elements 1..5. -/
def listBufEx : Bytes := [3, 9, 0, 0, 0, 5, 0, 0, 0, 1, 2, 3, 4, 5]

/-- The same LIST with byteSize deliberately lowered to 8. -/
def listBufBad : Bytes := [3, 8, 0, 0, 0, 5, 0, 0, 0, 1, 2, 3, 4, 5]

/-- An Option with an unassigned nested tag byte (99) and count 0. -/
def optBufEmpty : Bytes := [99, 0]

/-- An Option with nested tag U8 and count byte 5 (not 1), then one byte. -/
def optBufFive : Bytes := [3, 5, 42]

/-- A root entry as `parse_full_prop` reads it: entry_len 6, key hash 9,
field count 0 (the span is exactly the 4 + 2 embed-header bytes). -/
def rootEntryBuf : Bytes := [6, 0, 0, 0, 9, 0, 0, 0, 0, 0]

/-- The same root entry with entry_len deliberately raised to 7. -/
def rootEntryBufBad : Bytes := [7, 0, 0, 0, 9, 0, 0, 0, 0, 0]

/-- A PROP buffer for `parse_bin` whose single root entry declares
entry_len 12 although its header plus field headers span only 10 bytes:
version word 1, entry count 1, one type hash 170, then the entry header
(len 12, hash 7, 0 fields) and two trailing bytes. -/
def binCex2 : Bytes :=
  [0x50, 0x52, 0x4F, 0x50, 1, 0, 0, 0, 1, 0, 0, 0, 170, 0, 0, 0,
   12, 0, 0, 0, 7, 0, 0, 0, 0, 0, 0, 0]

/-- A PROP buffer for `parse_bin` where both u32 candidates after the magic
(1 and 0) are at most 10. -/
def binCex6 : Bytes := [0x50, 0x52, 0x4F, 0x50, 1, 0, 0, 0, 0, 0, 0, 0]

/-- A PROP buffer for `parse_bin` where neither candidate is at most 10. -/
def noVerBuf : Bytes := [0x50, 0x52, 0x4F, 0x50, 11, 0, 0, 0, 11, 0, 0, 0]

/-- A version-2 PROP buffer for `parse_bin` with one linked string encoded
as a u16 length prefix 3 followed by `A B C`. -/
def binCex7 : Bytes :=
  [0x50, 0x52, 0x4F, 0x50, 2, 0, 0, 0, 0, 0, 0, 0, 1, 0, 0, 0,
   3, 0, 65, 66, 67]

/-- A version-2 PROP buffer for `parse_full_prop` with one linked pascal
string (length 3, `A B C`) and zero entries. -/
def propBufV2 : Bytes :=
  [0x50, 0x52, 0x4F, 0x50, 2, 0, 0, 0, 1, 0, 0, 0, 3, 0, 65, 66, 67,
   0, 0, 0, 0]

/-- An archive whose single surviving entry (hash 1, offset 0x140, size 4)
points at a payload that begins with the zstd magic. -/
def wadCex3 : Bytes :=
  List.replicate 288 0 ++ [1, 0, 0, 0, 0, 0, 0, 0, 0x40, 1, 0, 0, 4, 0, 0, 0]
    ++ List.replicate 16 0 ++ [0x28, 0xB5, 0x2F, 0xFD]

/-- An archive whose single surviving entry (hash 2, offset 0x140, size 5)
points at a zstd-magic payload with one extra byte. -/
def wadCex5 : Bytes :=
  List.replicate 288 0 ++ [2, 0, 0, 0, 0, 0, 0, 0, 0x40, 1, 0, 0, 5, 0, 0, 0]
    ++ List.replicate 16 0 ++ [0x28, 0xB5, 0x2F, 0xFD, 1]

/-- An archive whose single surviving entry (hash 9, offset 0x130, size 2)
points at an uncompressed payload. -/
def wadWit : Bytes :=
  List.replicate 288 0 ++ [9, 0, 0, 0, 0, 0, 0, 0, 0x30, 1, 0, 0, 2, 0, 0, 0]
    ++ [11, 22]

/-- An archive whose first table entry has hash 5 but size 0 (a skipped
corrupt entry). -/
def wadSkip : Bytes :=
  List.replicate 288 0 ++ [5, 0, 0, 0, 0, 0, 0, 0, 0, 0, 0, 0, 0, 0, 0, 0]

/-- C9: at any position where an Option is decoded and the count byte is 0,
`read_value` returns the empty option (`None`) and consumes exactly 2 bytes
(the nested-tag byte and the count byte), whatever the nested tag byte is. -/
theorem claim_C9 (f : Nat) (hdb : HashDB) (b : Bytes) (p vt : Nat)
    (h1 : readU8 b p = .ok vt) (h2 : readU8 b (p + 1) = .ok 0) :
    read_value (f + 1) hdb b 133 p = .ok (.vNone, p + 2) := by
  have e1 : read_value (f + 1) hdb b 133 p =
      (match readU8 b p with
       | .error e => .error e
       | .ok vt' =>
         match readU8 b (p + 1) with
         | .error e => .error e
         | .ok cnt =>
           if cnt = 0 then .ok (.vNone, p + 2)
           else read_value f hdb b vt' (p + 2)) := rfl
  rw [e1, h1]
  simp only
  rw [h2]
  rfl

/-- C9 witness: an Option whose nested tag byte 99 is not even a valid tag
still decodes to the empty option in exactly 2 bytes. -/
theorem claim_C9_witness :
    read_value 5 hdb0 optBufEmpty 133 0 = .ok (.vNone, 2) :=
  claim_C9 4 hdb0 optBufEmpty 0 99 rfl rfl

/-- C10: a nonzero Option count byte (any value, not only 1) makes
`read_value` decode exactly one nested value of the declared tag, returned
unwrapped; larger counts are neither rejected nor decoded repeatedly. -/
theorem claim_C10 (f : Nat) (hdb : HashDB) (b : Bytes) (p vt c : Nat)
    (h1 : readU8 b p = .ok vt) (h2 : readU8 b (p + 1) = .ok c)
    (hc : c ≠ 0) :
    read_value (f + 1) hdb b 133 p = read_value f hdb b vt (p + 2) := by
  have e1 : read_value (f + 1) hdb b 133 p =
      (match readU8 b p with
       | .error e => .error e
       | .ok vt' =>
         match readU8 b (p + 1) with
         | .error e => .error e
         | .ok cnt =>
           if cnt = 0 then .ok (.vNone, p + 2)
           else read_value f hdb b vt' (p + 2)) := rfl
  rw [e1, h1]
  simp only
  rw [h2]
  simp only
  rw [if_neg hc]

/-- C10 witness: count byte 5 decodes exactly one nested U8. -/
theorem claim_C10_witness :
    read_value 2 hdb0 optBufFive 133 0 = read_value 1 hdb0 optBufFive 3 2 ∧
    read_value 2 hdb0 optBufFive 133 0 = .ok (.vNat 42, 3) :=
  ⟨claim_C10 1 hdb0 optBufFive 0 3 5 rfl rfl (by decide), rfl⟩

/-- C1: decoding a LIST/LIST2, MAP, or EMBED/POINTER with `read_value`
leaves the cursor at exactly the position recorded right after the
container's byteSize field plus byteSize (first three conjuncts); and when
the declared byteSize does not match the bytes the elements actually
consumed, `read_value` raises the size-mismatch error of the source assert
instead of returning a value (last three conjuncts). -/
theorem claim_C1 :
    (∀ fuel hdb b p t v q, (t = 128 ∨ t = 129) →
        read_value fuel hdb b t p = .ok (v, q) →
        ∃ sz, readU32 b (p + 1) = .ok sz ∧ q = p + 5 + sz) ∧
    (∀ fuel hdb b p v q,
        read_value fuel hdb b 134 p = .ok (v, q) →
        ∃ sz, readU32 b (p + 2) = .ok sz ∧ q = p + 6 + sz) ∧
    (∀ fuel hdb b p t v q, (t = 130 ∨ t = 131) →
        read_value fuel hdb b t p = .ok (v, q) →
        ∃ sz, readU32 b (p + 4) = .ok sz ∧ q = p + 8 + sz) ∧
    (∀ f hdb b p t vt sz cnt xs q, (t = 128 ∨ t = 129) →
        readU8 b p = .ok vt → readU32 b (p + 1) = .ok sz →
        readU32 b (p + 5) = .ok cnt →
        readSeq (fun u r => read_value f hdb b u r) vt cnt (p + 9) =
          .ok (xs, q) →
        q ≠ p + 5 + sz →
        read_value (f + 1) hdb b t p =
          .error (.sizeMismatch (p + 5 + sz) q)) ∧
    (∀ f hdb b p kt vt sz cnt ps q,
        readU8 b p = .ok kt → readU8 b (p + 1) = .ok vt →
        readU32 b (p + 2) = .ok sz → readU32 b (p + 6) = .ok cnt →
        readPairs (fun u r => read_value f hdb b u r) kt vt cnt (p + 10) =
          .ok (ps, q) →
        q ≠ p + 6 + sz →
        read_value (f + 1) hdb b 134 p =
          .error (.sizeMismatch (p + 6 + sz) q)) ∧
    (∀ f hdb b p t nh sz fc fs q, (t = 130 ∨ t = 131) →
        readU32 b p = .ok nh → readU32 b (p + 4) = .ok sz →
        readU16 b (p + 8) = .ok fc →
        readFields (fun u r => read_value f hdb b u r) hdb b fc (p + 10) =
          .ok (fs, q) →
        q ≠ p + 8 + sz →
        read_value (f + 1) hdb b t p =
          .error (.sizeMismatch (p + 8 + sz) q)) := by
  refine ⟨?_, ?_, ?_, ?_, ?_, ?_⟩
  · intro fuel hdb b p t v q ht h
    cases fuel with
    | zero => rcases ht with rfl | rfl <;> exact Except.noConfusion h
    | succ f =>
      rcases ht with rfl | rfl <;>
        exact readListBody_ok_end _ _ _ _ _ h
  · intro fuel hdb b p v q h
    cases fuel with
    | zero => exact Except.noConfusion h
    | succ f => exact readMapBody_ok_end _ _ _ _ _ h
  · intro fuel hdb b p t v q ht h
    cases fuel with
    | zero => rcases ht with rfl | rfl <;> exact Except.noConfusion h
    | succ f =>
      rcases ht with rfl | rfl <;>
        exact readEmbedBody_ok_end _ _ _ _ _ _ h
  · intro f hdb b p t vt sz cnt xs q ht h1 h2 h3 h4 hne
    rcases ht with rfl | rfl <;>
      exact readListBody_mismatch _ _ _ _ _ _ _ _ h1 h2 h3 h4 hne
  · intro f hdb b p kt vt sz cnt ps q h1 h2 h3 h4 h5 hne
    exact readMapBody_mismatch _ _ _ _ _ _ _ _ _ h1 h2 h3 h4 h5 hne
  · intro f hdb b p t nh sz fc fs q ht h1 h2 h3 h4 hne
    rcases ht with rfl | rfl <;>
      exact readEmbedBody_mismatch _ _ _ _ _ _ _ _ _ h1 h2 h3 h4 hne

/-- C1 witness: the five-element U8 LIST with byteSize 9 ends at cursor 14
= 5 + 9, and the same list with byteSize 8 raises the size-mismatch error. -/
theorem claim_C1_witness :
    (∃ sz, readU32 listBufEx 1 = .ok sz ∧ 14 = 0 + 5 + sz) ∧
    read_value 3 hdb0 listBufBad 128 0 = .error (.sizeMismatch 13 14) := by
  constructor
  · exact claim_C1.1 3 hdb0 listBufEx 0 128
      (.vList [.vNat 1, .vNat 2, .vNat 3, .vNat 4, .vNat 5]) 14
      (Or.inl rfl) (by rfl)
  · exact claim_C1.2.2.2.1 2 hdb0 listBufBad 0 128 3 8 5
      [.vNat 1, .vNat 2, .vNat 3, .vNat 4, .vNat 5] 14
      (Or.inl rfl) (by rfl) (by rfl) (by rfl) (by rfl) (by decide)

/-- C2 (amended): in `parse_full_prop`, a successfully decoded root entry
always ends at `slice_start + entry_len` (the position right after the
length field plus the declared length), and when the decoded embed ends
anywhere else the assert fails with a size-mismatch error, aborting the
decode.  (The quick viewer `parse_bin` instead repositions the cursor
unconditionally; see the counterexample.) -/
theorem claim_C2 :
    (∀ fuel hdb b rh p e q,
        readRootEntry fuel hdb b rh p = .ok (e, q) →
        ∃ len, readU32 b p = .ok len ∧ q = (p + 4) + len) ∧
    (∀ fuel hdb b rh p len kh fc fs q,
        readU32 b p = .ok len → readU32 b (p + 4) = .ok kh →
        readU16 b (p + 8) = .ok fc →
        readFields (fun u r => read_value fuel hdb b u r) hdb b fc (p + 10) =
          .ok (fs, q) →
        q ≠ (p + 4) + len →
        readRootEntry fuel hdb b rh p =
          .error (.sizeMismatch ((p + 4) + len) q)) := by
  constructor
  · intro fuel hdb b rh p e q h
    exact readRootEntry_ok_end fuel hdb b rh p e q h
  · intro fuel hdb b rh p len kh fc fs q h1 h2 h3 h4 hne
    exact readRootEntry_mismatch fuel hdb b rh p len kh fc fs q h1 h2 h3 h4 hne

/-- C2 witness: a zero-field root entry with entry_len 6 ends at exactly
4 + 6 = 10; raising entry_len to 7 yields the size-mismatch error. -/
theorem claim_C2_witness :
    (∃ len, readU32 rootEntryBuf 0 = .ok len ∧ 10 = (0 + 4) + len) ∧
    readRootEntry 5 hdb0 rootEntryBufBad 5 0 =
      .error (.sizeMismatch 11 10) := by
  constructor
  · exact claim_C2.1 5 hdb0 rootEntryBuf 5 0
      ("0x00000005", .vObj [("__type", .vPyStr "0x00000009")]) 10 (by rfl)
  · exact claim_C2.2 5 hdb0 rootEntryBufBad 5 0 7 9 0 [] 10
      (by rfl) (by rfl) (by rfl) (by rfl) (by decide)

/-- C2 counterexample: on this buffer the root entry's field headers end at
cursor 26 while the declared end is 16 + 12 = 28, yet `parse_bin` reports
no error — it silently repositions the cursor to the declared end and
returns a result, contradicting the claim that any mismatch aborts the
decode. -/
theorem claim_C2_counterexample :
    parse_bin unh0 (fun d => d) binCex2 =
      .ok ⟨1, [], [⟨"0x0000000000000007", 170, 0, []⟩]⟩ ∧
    readEntryHeader binCex2 16 = .ok (12, 7, 0) ∧
    readBinFields unh0 binCex2 0 26 = .ok ([], 26) ∧
    26 ≠ 16 + 12 :=
  ⟨rfl, rfl, rfl, by decide⟩

/-- C3 (amended): every pair of the chunks dict comes from a surviving
table entry with nonzero size and an in-bounds `[offset, offset + size)`
range, its payload being `_maybe_decompress` of that slice; and an entry
with zero size or an out-of-range span is skipped while the scan continues
with the next entry. -/
theorem claim_C3 :
    (∀ dcmp wad h pl, (h, pl) ∈ extract_wad_chunks dcmp wad →
        ∃ loc size, (h, loc, size) ∈ scanTriples wad MAX_CHUNKS 0 ∧
          size ≠ 0 ∧ loc + size ≤ wad.length ∧
          pl = entryPayload dcmp wad loc size) ∧
    (∀ dcmp wad k n acc,
        ¬(TABLE_OFFSET + n * ENTRY_SIZE + ENTRY_SIZE > wad.length) →
        ¬(entryHash wad n = 0 ∧ entryLoc wad n = 0 ∧ entrySize wad n = 0) →
        (entrySize wad n = 0 ∨
          entryLoc wad n + entrySize wad n > wad.length) →
        extractLoop dcmp wad (k + 1) n acc =
          extractLoop dcmp wad k (n + 1) acc) := by
  constructor
  · intro dcmp wad h pl hx
    exact mem_extract_chunks dcmp wad h pl hx
  · intro dcmp wad k n acc h1 h2 h3
    simp only [extractLoop]
    rw [if_neg h1, if_neg h2, if_pos h3]

/-- C3 witness: the surviving raw entry of `wadWit` is recovered with its
in-bounds provenance, and the zero-size entry of `wadSkip` is skipped while
the loop moves on to the next index. -/
theorem claim_C3_witness :
    (∃ loc size, (9, loc, size) ∈ scanTriples wadWit MAX_CHUNKS 0 ∧
      size ≠ 0 ∧ loc + size ≤ wadWit.length ∧
      [11, 22] = entryPayload (fun x => x) wadWit loc size) ∧
    extractLoop (fun x => x) wadSkip 4 0 [] =
      extractLoop (fun x => x) wadSkip 3 1 [] := by
  constructor
  · exact claim_C3.1 (fun x => x) wadWit 9 [11, 22] (by decide)
  · exact claim_C3.2 (fun x => x) wadSkip 3 0 [] (by decide) (by decide)
      (by decide)

/-- C3 counterexample: the sole surviving entry of `wadCex3` is
`(hash 1, offset 0x140, size 4)`, its slice is the zstd magic, and the
mapping stores the decompressor's output `[42]`, which is not the slice of
the buffer — refuting the claim that every payload in the mapping is the
raw slice `[offset, offset + size)`. -/
theorem claim_C3_counterexample :
    extract_wad_chunks (fun _ => [42]) wadCex3 = [(1, [42])] ∧
    scanTriples wadCex3 MAX_CHUNKS 0 = [(1, 320, 4)] ∧
    byteSlice wadCex3 320 324 = [0x28, 0xB5, 0x2F, 0xFD] ∧
    ([42] : Bytes) ≠ [0x28, 0xB5, 0x2F, 0xFD] :=
  ⟨by decide, by decide, by decide, by decide⟩

/-- C4: the chunks dict answers every hash lookup with the payload of the
latest surviving occurrence of that hash in scan order (lookup on the
reversed insertion sequence); earlier payloads for the same hash are
overwritten. -/
theorem claim_C4 (dcmp : Bytes → Bytes) (wad : Bytes) (q : Nat) :
    pyLookup (extract_wad_chunks dcmp wad) q =
      pyLookup (scanPayloads dcmp wad MAX_CHUNKS 0).reverse q := by
  rw [extract_wad_chunks, extractLoop_eq_foldl, pyLookup_foldl]
  cases pyLookup (scanPayloads dcmp wad MAX_CHUNKS 0).reverse q <;> rfl

/-- C5 (amended): every payload stored by the chunk-table scan is
`_maybe_decompress` of its entry's slice — the decompressor's output
whenever the slice begins with the zstd magic (for every such chunk, not
only the manifest), and the raw slice otherwise. -/
theorem claim_C5 (dcmp : Bytes → Bytes) (wad : Bytes) (h : Nat) (pl : Bytes)
    (hx : (h, pl) ∈ extract_wad_chunks dcmp wad) :
    ∃ loc size, (h, loc, size) ∈ scanTriples wad MAX_CHUNKS 0 ∧
      pl = _maybe_decompress dcmp (byteSlice wad loc (loc + size)) ∧
      ((byteSlice wad loc (loc + size)).take 4 = ZSTD_MAGIC →
        pl = dcmp (byteSlice wad loc (loc + size))) ∧
      ((byteSlice wad loc (loc + size)).take 4 ≠ ZSTD_MAGIC →
        pl = byteSlice wad loc (loc + size)) := by
  obtain ⟨loc, size, htr, _, _, hpl⟩ := mem_extract_chunks dcmp wad h pl hx
  refine ⟨loc, size, htr, hpl, ?_, ?_⟩
  · intro hm
    rw [hpl]
    unfold entryPayload _maybe_decompress
    rw [if_pos hm]
  · intro hm
    rw [hpl]
    unfold entryPayload _maybe_decompress
    rw [if_neg hm]

/-- C5 witness: the raw (non-magic) payload of `wadWit` is stored as the
untouched slice. -/
theorem claim_C5_witness :
    ∃ loc size, (9, loc, size) ∈ scanTriples wadWit MAX_CHUNKS 0 ∧
      [11, 22] = _maybe_decompress (fun x => x)
        (byteSlice wadWit loc (loc + size)) ∧
      ((byteSlice wadWit loc (loc + size)).take 4 = ZSTD_MAGIC →
        [11, 22] = (fun x => x) (byteSlice wadWit loc (loc + size))) ∧
      ((byteSlice wadWit loc (loc + size)).take 4 ≠ ZSTD_MAGIC →
        ([11, 22] : Bytes) = byteSlice wadWit loc (loc + size)) :=
  claim_C5 (fun x => x) wadWit 9 [11, 22] (by decide)

/-- C5 counterexample: the sole surviving chunk of `wadCex5` has hash 2
(not the manifest hash), its slice begins with the zstd magic, and the
mapping stores the decompressor's output `[7, 7]` instead of the raw slice
— refuting the claim that the mapping holds raw not-yet-decompressed bytes
with only the manifest chunk decompressed eagerly. -/
theorem claim_C5_counterexample :
    extract_wad_chunks (fun _ => [7, 7]) wadCex5 = [(2, [7, 7])] ∧
    scanTriples wadCex5 MAX_CHUNKS 0 = [(2, 320, 5)] ∧
    byteSlice wadCex5 320 325 = [0x28, 0xB5, 0x2F, 0xFD, 1] ∧
    ([7, 7] : Bytes) ≠ [0x28, 0xB5, 0x2F, 0xFD, 1] ∧
    2 ≠ MANIFEST_HASH :=
  ⟨by decide, by decide, by decide, by decide, by decide⟩

/-- C6 (amended): when neither u32 candidate after the magic is at most 10,
`parse_bin` fails with the unresolvable-version error; but when both
qualify it does not fail: on any successful parse the version is the first
candidate whenever that is at most 10 (even if the second also qualifies),
and the second candidate only otherwise. -/
theorem claim_C6 :
    (∀ unh dcmp raw a c,
        byteSlice (_maybe_decompress dcmp raw)
            (ptchOffset (_maybe_decompress dcmp raw))
            (ptchOffset (_maybe_decompress dcmp raw) + 4) = PROPmagic →
        readU32x2 (_maybe_decompress dcmp raw)
            (ptchOffset (_maybe_decompress dcmp raw) + 4) = .ok (a, c) →
        10 < a → 10 < c →
        parse_bin unh dcmp raw = .error .noVersion) ∧
    (∀ unh dcmp raw r a c,
        parse_bin unh dcmp raw = .ok r →
        readU32x2 (_maybe_decompress dcmp raw)
            (ptchOffset (_maybe_decompress dcmp raw) + 4) = .ok (a, c) →
        (a ≤ 10 ∧ r.version = a) ∨ (10 < a ∧ c ≤ 10 ∧ r.version = c)) := by
  constructor
  · intro unh dcmp raw a c hmagic h2 ha hc
    exact parse_bin_noVersion unh dcmp raw a c hmagic h2 ha hc
  · intro unh dcmp raw r a c h h2
    exact parse_bin_version_heuristic unh dcmp raw r a c h h2

/-- C6 witness: a buffer whose two candidates are both 11 is rejected with
the unresolvable-version error; and on `binCex6` (candidates 1 and 0) the
successful parse picks the first candidate as version. -/
theorem claim_C6_witness :
    parse_bin unh0 (fun d => d) noVerBuf = .error .noVersion ∧
    ((1 ≤ 10 ∧ BinResult.version ⟨1, [], []⟩ = 1) ∨
      (10 < 1 ∧ 0 ≤ 10 ∧ BinResult.version ⟨1, [], []⟩ = 0)) := by
  constructor
  · exact claim_C6.1 unh0 (fun d => d) noVerBuf 11 11 (by rfl) (by rfl)
      (by decide) (by decide)
  · exact claim_C6.2 unh0 (fun d => d) binCex6 ⟨1, [], []⟩ 1 0 rfl rfl

/-- C6 counterexample: on `binCex6` both candidate u32s (1 and 0) are at
most 10, yet `parse_bin` succeeds instead of failing with a FormatError —
refuting the claim that decoding fails when both candidates qualify. -/
theorem claim_C6_counterexample :
    readU32x2 binCex6 4 = .ok (1, 0) ∧ 1 ≤ 10 ∧ 0 ≤ 10 ∧
    parse_bin unh0 (fun d => d) binCex6 = .ok ⟨1, [], []⟩ :=
  ⟨rfl, by decide, by decide, rfl⟩

/-- C7 (amended): in the recursive decoder (`parse_full_prop`), a linked
string is delimited solely by its u16 byte-length prefix — it is the slice
of exactly that many bytes after the prefix, with no null terminator
involved — and a successful version ≥ 2 parse reads a u32 linkedCount at
offset 8 followed by exactly that many such strings.  (The quick viewer
`parse_bin` instead scans for null bytes; see the counterexample.) -/
theorem claim_C7 :
    (∀ b p n, readU16 b p = .ok n → p + 2 + n ≤ b.length →
        pascal_string b p =
          .ok (byteSlice b (p + 2) (p + 2 + n), p + 2 + n)) ∧
    (∀ fuel hdb b r, parse_full_prop fuel hdb b = .ok r → 2 ≤ r.version →
        ∃ cnt ss p1, readU32 b 8 = .ok cnt ∧
          readPascalList b cnt 12 = .ok (ss, p1) ∧ r.linked = some ss) := by
  constructor
  · intro b p n h hle
    exact pascal_string_spec b p n h hle
  · intro fuel hdb b r h hver
    exact parse_full_prop_linked fuel hdb b r h hver

/-- C7 witness: the pascal string with prefix 3 consumes exactly 5 bytes
regardless of its content, and the version-2 buffer `propBufV2` parses with
its single linked string read through the pascal convention. -/
theorem claim_C7_witness :
    pascal_string binCex7 16 = .ok (byteSlice binCex7 18 21, 21) ∧
    (∃ cnt ss p1, readU32 propBufV2 8 = .ok cnt ∧
      readPascalList propBufV2 cnt 12 = .ok (ss, p1) ∧
      (PropResult.linked ⟨2, some [[65, 66, 67]], []⟩) = some ss) := by
  constructor
  · exact claim_C7.1 binCex7 16 3 (by rfl) (by decide)
  · exact claim_C7.2 5 hdb0 propBufV2 ⟨2, some [[65, 66, 67]], []⟩
      (by rfl) (by decide)

/-- C7 counterexample: in `binCex7` the linked string's u16 length prefix
reads 3 and the three bytes after it are `A B C`, but `parse_bin` returns
the single-byte string `[3]` — it scanned up to a null byte instead of
using the u16 byte-length prefix, refuting the claim for this decoder. -/
theorem claim_C7_counterexample :
    parse_bin unh0 (fun d => d) binCex7 = .ok ⟨2, [[3]], []⟩ ∧
    readU16 binCex7 16 = .ok 3 ∧
    byteSlice binCex7 18 21 = [65, 66, 67] ∧
    ([[3]] : List Bytes) ≠ [[65, 66, 67]] :=
  ⟨rfl, rfl, by decide, by decide⟩

/-- C8 (amended): an id the tables do not contain renders as `0x` followed
by fixed-width zero-padded hex and resolution failure is never an error,
but the 64-bit renderer (`RiotHashUnhasher.unhash`) uses UPPERCASE
`%016X` digits while the 32-bit renderer (`HashDB.get`) uses lowercase
`%08x`; the padded field has exactly the format width for ids below
`16 ^ width`. -/
theorem claim_C8 :
    (∀ u : RiotHashUnhasher, ∀ v, u.hash_map v = none →
        u.unhash v = "0x" ++ pyHexString true 16 v) ∧
    (∀ u : RiotHashUnhasher, ∀ v s, u.hash_map v = some s →
        u.unhash v = s) ∧
    (∀ d : HashDB, ∀ h, d.idx h = none →
        d.get h = "0x" ++ pyHexString false 8 h) ∧
    (∀ d : HashDB, ∀ h s, d.idx h = some s → d.get h = s) ∧
    (∀ up w n, 0 < w → n < 16 ^ w → (pyHexString up w n).length = w) := by
  refine ⟨?_, ?_, ?_, ?_, ?_⟩
  · intro u v h
    unfold RiotHashUnhasher.unhash
    rw [h]
  · intro u v s h
    unfold RiotHashUnhasher.unhash
    rw [h]
  · intro d h hh
    unfold HashDB.get
    rw [hh]
  · intro d h s hh
    unfold HashDB.get
    rw [hh]
  · intro up w n hw hn
    exact pyHexString_length up w n hw hn

/-- C8 witness: with no tables loaded, id 255 renders through the
uppercase 16-wide format, whose digit field has length exactly 16. -/
theorem claim_C8_witness :
    unh0.unhash 255 = "0x" ++ pyHexString true 16 255 ∧
    (pyHexString true 16 255).length = 16 := by
  constructor
  · exact claim_C8.1 unh0 255 rfl
  · exact claim_C8.2.2.2.2 true 16 255 (by decide) (by decide)

/-- C8 counterexample: the unresolved 64-bit rendering of 255 is
`0x00000000000000FF` with UPPERCASE hex digits, not the lowercase
`0x00000000000000ff` the claim requires. -/
theorem claim_C8_counterexample :
    unh0.unhash 255 = "0x00000000000000FF" ∧
    "0x00000000000000FF" ≠ "0x00000000000000ff" :=
  ⟨rfl, by decide⟩
